import Mathlib

/-!
Verification of the h5schemaesqe repository against its specification.

The repository holds two parallel implementations of a schema-driven wrapper
around a hierarchical store:
- package h5schemaesqe (file src/h5schemaesqe/__init__.py), embedded below in
  namespace H5S, and
- package hdf5_wrapper (file src/hdf5_wrapper/__init__.py), embedded below in
  namespace HW.

The embedding is shallow: every Lean definition mirrors one Python function or
method of the source, including the places where the source calls a Python or
library primitive whose behaviour decides the outcome (pathlib argument
validation, raising a non-exception value, subscribing a str-keyed dict with an
int). Errors are explicit: fallible code returns Except PyErr.
-/

/-- Python exception classes that the embedded code can raise, collapsed to
their class.  keyError and indexError are the two LookupError subclasses the
source uses. -/
inductive PyErr where
  | keyError
  | indexError
  | typeError
  | valueError
  | runtimeError
  | nameError
  | attributeError
  | notImplementedError
deriving DecidableEq, Repr

/-- Decimal value of a digit character, none for a non-digit. -/
def digitVal (c : Char) : Option Nat :=
  if c.toNat ≥ 48 ∧ c.toNat ≤ 57 then some (c.toNat - 48) else none

/-- Value of a nonempty run of digit characters. -/
def decNat : List Char → Nat → Option Nat
  | [], acc => some acc
  | c :: rest, acc =>
    match digitVal c with
    | some d => decNat rest (acc * 10 + d)
    | none => none

/-- Python int(string): an optional minus sign followed by decimal digits;
anything else raises ValueError (signalled here by none). -/
def pyParseInt (s : String) : Option Int :=
  match s.toList with
  | [] => none
  | c :: rest =>
    if c = Char.ofNat 45 then
      match rest with
      | [] => none
      | _ :: _ => (decNat rest 0).map (fun n => -(n : Int))
    else (decNat (c :: rest) 0).map (fun n => (n : Int))

namespace H5S

/-- Leaf value type tags a schema can declare: the scalar types int, str and
float (the ones listed in self._use_attrs) and an array type (any other type
falls into the dataset branch of the dispatch; the repository uses numpy
arrays there). -/
inductive LeafTy where
  | tint
  | tstr
  | tfloat
  | tarr
deriving DecidableEq, Repr

/-- Schema nodes of package h5schemaesqe: HDF5Group carries an ordered mapping
of field names to subschemas (the kwargs of HDF5Group.__init__), HDF5MultiGroup
carries a namedtuple name and a single element schema, HDF5Link is a marker,
and leaves carry a value type tag. -/
inductive HSchema where
  | group (children : List (String × HSchema))
  | multi (ntName : String) (elem : HSchema)
  | link
  | leaf (t : LeafTy)

/-- Values stored in the backing store: scalar ints, strings, floats
(modelled exactly as rationals, since no arithmetic is performed on them)
and arrays of floats. -/
inductive Value where
  | vint (n : Int)
  | vstr (s : String)
  | vfloat (q : Rat)
  | varr (xs : List Rat)
deriving DecidableEq, Repr

/-- Runtime Python objects handed to set calls: plain values, namedtuple
records (carrying the generated type name and the ordered field mapping that
vars returns on them), plain dicts, and plain sequences. -/
inductive PyObj where
  | val (v : Value)
  | record (tyName : String) (fields : List (String × PyObj))
  | pydict (entries : List (String × PyObj))
  | pyseq (items : List PyObj)

/-- The backing store as the wrapper sees it: scalar attributes and array
datasets keyed by (group path, name), and stored links mapping a link path to
the target path string that self._file reports for it.  Paths are kept as
pathlib part lists. -/
structure FileStore where
  attrs : List ((List String × String) × PyObj)
  dsets : List ((List String × String) × PyObj)
  links : List (List String × String)

/-- Lookup in an association list keyed by (path, name), first match wins
(writes prepend, so the first match is the most recent write). -/
def flookup (l : List ((List String × String) × PyObj)) (k : List String × String) :
    Option PyObj :=
  match l with
  | [] => none
  | (k0, v) :: rest => if k0 = k then some v else flookup rest k

/-- Lookup of a stored link target by link path. -/
def llookup (l : List (List String × String)) (k : List String) : Option String :=
  match l with
  | [] => none
  | (k0, v) :: rest => if k0 = k then some v else llookup rest k

/-- Lookup of a name in a schema child list (Python dict lookup by string
key; kwargs keys are distinct, so first match is the only match). -/
def lookupSchema (cs : List (String × HSchema)) (k : String) : Option HSchema :=
  match cs with
  | [] => none
  | (n, s) :: rest => if n = k then some s else lookupSchema rest k

/-- HDF5Path of the source is a PurePosixPath subclass; a path is its tuple of
parts.  For an absolute posix path the first part is the string "/". -/
structure HDF5Path where
  parts : List String
deriving DecidableEq, Repr

/-- Argument kinds that reach the HDF5Path constructor in the source: strings,
other path objects, and in HDF5Path.shared_path a plain Python list. -/
inductive PathArg where
  | strA (s : String)
  | pathA (p : HDF5Path)
  | listA (xs : List String)

/-- Splitting on the slash character (47), dropping empty segments: the
non-root parts of a posix path string as pathlib computes them. -/
def pathSegsOf : List Char → List Char → List String
  | [], acc => if acc = [] then [] else [String.mk acc.reverse]
  | c :: rest, acc =>
    if c = Char.ofNat 47 then
      if acc = [] then pathSegsOf rest []
      else String.mk acc.reverse :: pathSegsOf rest []
    else pathSegsOf rest (c :: acc)

/-- Parts of a posix path string as in the comment above. -/
def strParts (s : String) : List String :=
  let core := pathSegsOf s.toList []
  if s.toList.head? = some (Char.ofNat 47) then "/" :: core else core

/-- Joining part lists the way pathlib combines successive constructor
arguments: an absolute argument discards everything before it. -/
def joinParts (a b : List String) : List String :=
  if b.head? = some "/" then b else a ++ b

/-- The HDF5Path constructor, that is PurePosixPath argument handling: each
argument must be a string or another path object; any other argument,
in particular a plain Python list, raises TypeError. -/
def hdf5PathOfArgs (args : List PathArg) : Except PyErr HDF5Path :=
  if args.any (fun a => match a with | .listA _ => true | _ => false) then
    .error .typeError
  else
    .ok ⟨args.foldl (fun acc a =>
      match a with
      | .strA s => joinParts acc (strParts s)
      | .pathA p => joinParts acc p.parts
      | .listA _ => acc) []⟩

/-- The accumulation loop of HDF5Path.shared_path: walk the two part lists in
step, collect while equal, stop at the first mismatch. -/
def sharedSegs : List String → List String → List String
  | a :: as, b :: bs => if a = b then a :: sharedSegs as bs else []
  | _, _ => []

/-- HDF5Path.shared_path of the source: it builds the list of common leading
parts and then returns HDF5Path(path) where path is that plain Python list,
which the pathlib constructor rejects. -/
def HDF5Path.shared_path (p q : HDF5Path) : Except PyErr HDF5Path :=
  hdf5PathOfArgs [.listA (sharedSegs p.parts q.parts)]

/-- A materialized wrapper tree node: its store path and its cached child
wrappers by name (BaseGroupWrapper keeps the group-shaped children in
self._children; _get_descendant indexes into them). -/
inductive VTree where
  | mk (path : List String) (children : List (String × VTree))

/-- Path of a wrapper node. -/
def VTree.path : VTree → List String
  | .mk p _ => p

/-- Cached child wrappers of a wrapper node. -/
def VTree.children : VTree → List (String × VTree)
  | .mk _ cs => cs

/-- BaseGroupWrapper._get_ancestor: walk the parent chain (here the list from
the current wrapper up to the root) until a wrapper whose path equals the
requested one; when the root is reached without a match the source raises
RuntimeError. -/
def getAncestor : List VTree → List String → Except PyErr VTree
  | [], _ => .error .runtimeError
  | v :: rest, p =>
    if v.path = p then .ok v
    else
      match rest with
      | [] => .error .runtimeError
      | _ :: _ => getAncestor rest p

/-- BaseGroupWrapper._get_descendant: while the path differs, take the part of
the target path at position len(self._path.parts) and index into the child
wrappers with it, then recurse into that child. -/
def getDescendant (v : VTree) (p : List String) : Except PyErr VTree :=
  if v.path = p then .ok v
  else
    match (p.drop v.path.length).head? with
    | none => .error .indexError
    | some seg =>
      match hc : v.children.find? (fun c => c.1 = seg) with
      | none => .error .keyError
      | some c => getDescendant c.2 p
termination_by sizeOf v
decreasing_by
  have hm := List.mem_of_find?_eq_some hc
  have h1 := List.sizeOf_lt_of_mem hm
  cases v with
  | mk pa cs =>
    simp only [VTree.children] at h1
    cases c with
    | mk n t => simp at h1 ⊢; omega

/-- BaseGroupWrapper._get_link: build the link path from the current path and
the field name, read the target path the stored link points to, compute the
shared path of the two, walk up to the ancestor at the shared path and walk
down from it along the target path.  The shared path computation constructs a
path from a Python list, so it raises TypeError before any walk happens. -/
def getLink (st : FileStore) (chain : List VTree) (selfPath : List String)
    (name : String) : Except PyErr VTree := do
  let linkPath ← hdf5PathOfArgs [.pathA ⟨selfPath⟩, .strA name]
  let targetStr ←
    match llookup st.links linkPath.parts with
    | some t => Except.ok t
    | none => Except.error PyErr.keyError
  let actualPath ← hdf5PathOfArgs [.strA targetStr]
  let common ← linkPath.shared_path actualPath
  let anc ← getAncestor chain common.parts
  getDescendant anc actualPath.parts

/-- Wrapper classes that get_wrapper can select. -/
inductive WrapperKind where
  | groupW
  | multiW
deriving DecidableEq, Repr

/-- get_wrapper of the source: isinstance dispatch on the schema node.  For a
node that is neither a Group nor a MultiGroup the source builds a
TypeError object but never raises it, so the function falls off the end and
returns None without any error. -/
def get_wrapper (s : HSchema) : Except PyErr (Option WrapperKind) :=
  match s with
  | .group _ => .ok (some .groupW)
  | .multi _ _ => .ok (some .multiW)
  | _ => .ok none

/-- Calling the object get_wrapper returned: calling None raises TypeError;
calling a class constructs the wrapper. -/
def applyWrapper (w : Option WrapperKind) : Except PyErr WrapperKind :=
  match w with
  | none => .error .typeError
  | some k => .ok k

/-- Predicate selecting the schema children for which GroupWrapper.__init__
eagerly constructs a child wrapper: exactly the BaseHDF5Group-shaped ones,
that is Group and MultiGroup nodes. -/
def isGroupShaped : HSchema → Bool
  | .group _ => true
  | .multi _ _ => true
  | _ => false

/-- The names for which the GroupWrapper constructor loop stores an entry in
self._children. -/
def buildChildren (cs : List (String × HSchema)) : List String :=
  (cs.filter (fun p => isGroupShaped p.2)).map (fun p => p.1)

/-- BaseGroupWrapper.__len__: len(self._children), the count of materialized
child wrappers.  It takes no store argument: writes never change it. -/
def wrapperLen (cs : List (String × HSchema)) : Nat :=
  (buildChildren cs).length

/-- BaseGroupWrapper.__iter__: iter(self._schema), which iterates the declared
schema field names in declaration order.  It takes no store argument. -/
def wrapperIter (cs : List (String × HSchema)) : List String :=
  cs.map (fun p => p.1)

/-- BaseGroupWrapper.__delitem__: raise NotImplementedError unconditionally,
whatever the item. -/
def delitem (_item : PyObj) : Except PyErr Unit :=
  .error .notImplementedError

end H5S

namespace H5S

/-- Membership test objtype in self._use_attrs, where _use_attrs is the list
int, str, float: true exactly for the scalar leaf tags. -/
def useAttrsMem : LeafTy → Bool
  | .tint => true
  | .tstr => true
  | .tfloat => true
  | .tarr => false

/-- Truncation of a Python float to int: toward zero. -/
def pyFloatToInt (q : Rat) : Int :=
  if 0 ≤ q then ⌊q⌋ else ⌈q⌉

/-- The conversion objtype(x) applied on reads: the Python builtins int, str
and float on scalar values, and the array constructor on arrays.  Conversions
from shapes the repository never produces on a well-typed store (for example
str of a float, int of a non-value object) are collapsed to TypeError; every
conversion used below is one of the exact identity cases. -/
def convert (t : LeafTy) (o : PyObj) : Except PyErr Value :=
  match t, o with
  | .tint, .val (.vint n) => .ok (.vint n)
  | .tint, .val (.vstr s) =>
    match pyParseInt s with
    | some n => .ok (.vint n)
    | none => .error .valueError
  | .tint, .val (.vfloat q) => .ok (.vint (pyFloatToInt q))
  | .tstr, .val (.vstr s) => .ok (.vstr s)
  | .tstr, .val (.vint n) => .ok (.vstr (toString n))
  | .tfloat, .val (.vfloat q) => .ok (.vfloat q)
  | .tfloat, .val (.vint n) => .ok (.vfloat n)
  | .tarr, .val (.varr xs) => .ok (.varr xs)
  | _, _ => .error .typeError

/-- Well-typedness of a stored value for a declared leaf tag. -/
def wt : LeafTy → Value → Bool
  | .tint, .vint _ => true
  | .tstr, .vstr _ => true
  | .tfloat, .vfloat _ => true
  | .tarr, .varr _ => true
  | _, _ => false

/-- The leaf write of _set_item_in_file: scalar types go through _set_attr
(require_group then group.attrs assignment), every other type through
_set_dataset.  Writes prepend; reads take the first match. -/
def writeLeaf (st : FileStore) (path : List String) (name : String)
    (t : LeafTy) (o : PyObj) : FileStore :=
  if useAttrsMem t then { st with attrs := ((path, name), o) :: st.attrs }
  else { st with dsets := ((path, name), o) :: st.dsets }

/-- BaseGroupWrapper._set_link: the source checks isinstance(obj,
BaseHDF5Group) against the schema class, which no runtime value handed to a
set call satisfies (wrappers subclass BaseGroupWrapper, not the schema), so
every modelled object falls to the TypeError branch. -/
def set_link (_st : FileStore) (_path : List String) (_name : String)
    (_obj : PyObj) : Except PyErr FileStore :=
  .error .typeError

/-- Size bound for schema lookups, used for termination of the set dispatch
below: a child schema found by name is smaller than the child list. -/
theorem lookupSchema_sizeOf {cs : List (String × HSchema)} {k : String}
    {s : HSchema} (h : lookupSchema cs k = some s) : sizeOf s < sizeOf cs := by
  induction cs with
  | nil => simp [lookupSchema] at h
  | cons hd tl ih =>
    obtain ⟨n, sub⟩ := hd
    simp only [lookupSchema] at h
    split at h
    · injection h with h2
      subst h2
      simp
      omega
    · have := ih h
      simp
      omega

mutual

/-- BaseGroupWrapper._set_item_in_file: isinstance dispatch on the declared
schema kind of the field, in the order of the source (HDF5Group,
HDF5MultiGroup, HDF5Link, scalar attribute, dataset). -/
def set_item_in_file (st : FileStore) (path : List String) (name : String)
    (obj : PyObj) (objtype : HSchema) : Except PyErr FileStore :=
  match objtype with
  | .group gcs => set_group st path name obj gcs
  | .multi ntn elem => set_multi_group st path name obj ntn elem
  | .link => set_link st path name obj
  | .leaf t => .ok (writeLeaf st path name t obj)
termination_by (sizeOf objtype, 3, 0)

/-- BaseGroupWrapper._set_group: child = self[str(name)] is the eagerly
created cached child wrapper for this group-shaped field (schema gcs, path
extended by the field name, namedtuple named after the field); isinstance(obj,
child._namedtuple) holds exactly for records of that generated type; then
child.update(**vars(obj)) assigns every record field in order through the
child setitem. -/
def set_group (st : FileStore) (path : List String) (name : String)
    (obj : PyObj) (gcs : List (String × HSchema)) : Except PyErr FileStore :=
  match obj with
  | .record tn fields =>
    if tn = name then wrapperUpdate st (path ++ [name]) gcs fields
    else .error .typeError
  | _ => .error .typeError
termination_by (sizeOf gcs, 2, 0)

/-- MutableMapping.update specialised to a group wrapper: assign each given
field in order through GroupWrapper.__setitem__, which requires the name to be
declared in the schema (KeyError otherwise) and dispatches through
_set_item_in_file at the wrapper path. -/
def wrapperUpdate (st : FileStore) (cpath : List String)
    (gcs : List (String × HSchema)) (fields : List (String × PyObj)) :
    Except PyErr FileStore :=
  match fields with
  | [] => .ok st
  | (k, v) :: rest =>
    match hsub : lookupSchema gcs k with
    | some sub => do
      let st2 ← set_item_in_file st cpath k v sub
      wrapperUpdate st2 cpath gcs rest
    | none => .error .keyError
termination_by (sizeOf gcs, 1, fields.length)
decreasing_by
  · exact Prod.Lex.left _ _ (lookupSchema_sizeOf hsub)
  · exact Prod.Lex.right _ (Prod.Lex.right _ (by simp))

/-- BaseGroupWrapper._set_multi_group: child = self[str(name)] is the cached
MultiGroupWrapper; a Mapping is applied entry by entry as child[key] = val,
any other Iterable element by element as child[i] = item with integer indices
from enumerate (a namedtuple record is an iterable of its field values, a
string of its one character strings, an array of its floats), and a
non-iterable number raises TypeError. -/
def set_multi_group (st : FileStore) (path : List String) (name : String)
    (obj : PyObj) (ntn : String) (elem : HSchema) : Except PyErr FileStore :=
  match obj with
  | .pydict entries => multiFoldStr st (path ++ [name]) ntn elem entries
  | .pyseq items => multiFoldInt st (path ++ [name]) ntn elem items
  | .record _ flds =>
    multiFoldInt st (path ++ [name]) ntn elem (flds.map (fun p => p.2))
  | .val (.vstr s) =>
    multiFoldInt st (path ++ [name]) ntn elem
      (s.toList.map (fun c => PyObj.val (.vstr (String.singleton c))))
  | .val (.varr xs) =>
    multiFoldInt st (path ++ [name]) ntn elem
      (xs.map (fun q => PyObj.val (.vfloat q)))
  | .val (.vint _) => .error .typeError
  | .val (.vfloat _) => .error .typeError
termination_by (sizeOf elem, 2, 0)

/-- Entry-by-entry application of a Mapping value to a MultiGroupWrapper:
child[key] = val for each entry, keys are strings. -/
def multiFoldStr (st : FileStore) (mpath : List String) (ntn : String)
    (elem : HSchema) (entries : List (String × PyObj)) :
    Except PyErr FileStore :=
  match entries with
  | [] => .ok st
  | (k, v) :: rest => do
    let st2 ← multiSetitem st mpath ntn elem (Sum.inl k) v
    multiFoldStr st2 mpath ntn elem rest
termination_by (sizeOf elem, 1, entries.length)

/-- Element-by-element application of a sequence value to a
MultiGroupWrapper: child[i] = item with integer indices. -/
def multiFoldInt (st : FileStore) (mpath : List String) (ntn : String)
    (elem : HSchema) (items : List PyObj) : Except PyErr FileStore :=
  match items with
  | [] => .ok st
  | v :: rest => do
    let st2 ← multiSetitem st mpath ntn elem (Sum.inr (0 : Int)) v
    multiFoldInt st2 mpath ntn elem rest
termination_by (sizeOf elem, 1, items.length)

/-- MultiGroupWrapper.__setitem__: the item must be an instance of the element
namedtuple (TypeError otherwise); then self._subgroup_cls is called to build
the element wrapper (when the element schema is a Link or a leaf, get_wrapper
returned None at construction and calling None raises TypeError; when the key
is an integer, the wrapper path construction HDF5Path(parent, key) raises
TypeError inside pathlib) and the record is applied to it field by field with
update. -/
def multiSetitem (st : FileStore) (mpath : List String) (ntn : String)
    (elem : HSchema) (key : String ⊕ Int) (item : PyObj) :
    Except PyErr FileStore :=
  match item with
  | .record tn fields =>
    if tn = ntn then
      match elem with
      | .group gcs2 =>
        match key with
        | .inl kname => wrapperUpdate st (mpath ++ [kname]) gcs2 fields
        | .inr _ => .error .typeError
      | .multi n2 e2 =>
        match key with
        | .inl kname => multiFoldStr st (mpath ++ [kname]) n2 e2 fields
        | .inr _ => .error .typeError
      | .link => .error .typeError
      | .leaf _ => .error .typeError
    else .error .typeError
  | _ => .error .typeError
termination_by (sizeOf elem, 0, 0)

end

end H5S

namespace H5S

/-- BaseGroupWrapper._get_attr: read the attribute at (path, name); h5py
raises KeyError when the group or the attribute is absent. -/
def get_attr (st : FileStore) (path : List String) (name : String) :
    Except PyErr PyObj :=
  match flookup st.attrs (path, name) with
  | some o => .ok o
  | none => .error .keyError

/-- BaseGroupWrapper._get_dataset: read the dataset at (path, name); h5py
raises KeyError when it is absent. -/
def get_dataset (st : FileStore) (path : List String) (name : String) :
    Except PyErr PyObj :=
  match flookup st.dsets (path, name) with
  | some o => .ok o
  | none => .error .keyError

/-- Result of a get on a group wrapper: either a child or resolved wrapper,
identified by its store path, or a converted leaf value. -/
inductive GetRes where
  | view (path : List String)
  | value (v : Value)
deriving DecidableEq, Repr

/-- BaseGroupWrapper._get_item_from_file: isinstance dispatch in source
order.  A BaseHDF5Group-shaped field returns the cached child wrapper (created
at construction at path extended by the name), a Link field goes through
_get_link, a scalar leaf through _get_attr with conversion, anything else
through _get_dataset with conversion. -/
def get_item_from_file (st : FileStore) (chain : List VTree)
    (path : List String) (name : String) (objtype : HSchema) :
    Except PyErr GetRes :=
  match objtype with
  | .group _ => .ok (.view (path ++ [name]))
  | .multi _ _ => .ok (.view (path ++ [name]))
  | .link => do
    let v ← getLink st chain path name
    .ok (.view v.path)
  | .leaf t =>
    if useAttrsMem t then do
      let o ← get_attr st path name
      let v ← convert t o
      .ok (.value v)
    else do
      let o ← get_dataset st path name
      let v ← convert t o
      .ok (.value v)

/-- GroupWrapper.__getitem__: names not declared in the schema raise
KeyError, declared names dispatch through _get_item_from_file. -/
def getitem (st : FileStore) (chain : List VTree) (cs : List (String × HSchema))
    (path : List String) (name : String) : Except PyErr GetRes :=
  match lookupSchema cs name with
  | some sub => get_item_from_file st chain path name sub
  | none => .error .keyError

/-- GroupWrapper.__setitem__: names not declared in the schema raise
KeyError, declared names dispatch through _set_item_in_file. -/
def setitem (st : FileStore) (cs : List (String × HSchema))
    (path : List String) (name : String) (obj : PyObj) :
    Except PyErr FileStore :=
  match lookupSchema cs name with
  | some sub => set_item_in_file st path name obj sub
  | none => .error .keyError

/-- Check that a record value fits a group schema whose relevant fields are
leaves: every record field is declared as a leaf and carries a well-typed
plain value.  This is what it means for a value of the generated RecordType of
a group of scalar and array fields to be well-typed. -/
def fieldsOK (gcs : List (String × HSchema)) : List (String × PyObj) → Bool
  | [] => true
  | (k, o) :: rest =>
    (match lookupSchema gcs k, o with
     | some (.leaf t), .val v => wt t v
     | _, _ => false) && fieldsOK gcs rest

/-- Raw read of the store location a leaf write of writeLeaf goes to. -/
def readLeafRaw (st : FileStore) (path : List String) (name : String)
    (t : LeafTy) : Option PyObj :=
  if useAttrsMem t then flookup st.attrs (path, name)
  else flookup st.dsets (path, name)

end H5S

namespace HW

/-- Schema values of hdf5_wrapper: a nested structure made of plain Python
dicts (groups), plain lists (multigroups, the element being the first entry),
and the types int, str, float and numpy.ndarray as leaves. -/
inductive WSchema where
  | wdict (children : List (String × WSchema))
  | wlist (elems : List WSchema)
  | wint
  | wstr
  | wfloat
  | wndarray

/-- Runtime scalar and array values. -/
inductive WVal where
  | wvint (n : Int)
  | wvstr (s : String)
  | wvfloat (q : Rat)
  | wvarr (xs : List Rat)
deriving DecidableEq, Repr

/-- Runtime objects handed to set calls. -/
inductive WObj where
  | wval (v : WVal)
  | wrecord (tyName : String) (fields : List (String × WObj))
  | wdictObj (entries : List (String × WObj))
  | wseq (items : List WObj)

/-- Keys and indices as Python hands them around: integers, strings, and
slice objects. -/
inductive WKey where
  | kint (i : Int)
  | kstr (s : String)
  | kslice
deriving DecidableEq, Repr

/-- valid_index of the source, after the int conversions of its first line:
False when index >= length, False when index < -length, True otherwise. -/
def valid_index (index length : Int) : Bool :=
  if index ≥ length then false
  else if index < -length then false
  else true

/-- The conversion int(x): an int is itself, a string is parsed (ValueError
when it is not a decimal literal), a slice raises TypeError. -/
def pyToInt : WKey → Except PyErr Int
  | .kint i => .ok i
  | .kstr s =>
    match pyParseInt s with
    | some n => .ok n
    | none => .error .valueError
  | .kslice => .error .typeError

/-- The conversion str(key) applied by child = self[str(name)]. -/
def strKey : WKey → WKey
  | .kint i => .kstr (toString i)
  | .kstr s => .kstr s
  | .kslice => .kstr "slice"

/-- Lookup by name in a schema dict. -/
def lookupW (cs : List (String × WSchema)) (k : String) : Option WSchema :=
  match cs with
  | [] => none
  | (n, s) :: rest => if n = k then some s else lookupW rest k

/-- Backing state of the hdf5_wrapper embedding: attributes and datasets
keyed by (group path, name), and the current instance count of each
multigroup wrapper by its path (len of its _instances list). -/
structure WState where
  attrs : List ((List String × WKey) × WObj)
  dsets : List ((List String × WKey) × WObj)
  counts : List (List String × Nat)

/-- Lookup in the attribute or dataset store. -/
def wflookup (l : List ((List String × WKey) × WObj)) (k : List String × WKey) :
    Option WObj :=
  match l with
  | [] => none
  | (k0, v) :: rest => if k0 = k then some v else wflookup rest k

/-- Lookup of an instance count by multigroup path. -/
def clookup (l : List (List String × Nat)) (k : List String) : Option Nat :=
  match l with
  | [] => none
  | (k0, v) :: rest => if k0 = k then some v else clookup rest k

/-- Instance count of the multigroup wrapper at a path, len(self._instances).
A path never counted holds no instances yet (the construction scan of an
empty or absent store group found nothing). -/
def mgLen (st : WState) (path : List String) : Nat :=
  match clookup st.counts path with
  | some n => n
  | none => 0

/-- Record a freshly appended instance at a multigroup path. -/
def bumpCount (st : WState) (path : List String) : WState :=
  { st with counts := (path, mgLen st path + 1) :: st.counts }

/-- The namedtuple _set_named_tuple generates for a wrapper: namedtuple(name,
keys of the mapping) when the mapping has keys, that is when it is a dict;
for any other mapping the keys access raises AttributeError, caught, and
_named_tuple is None. -/
def mgNtName (name : String) (mapping : WSchema) : Option String :=
  match mapping with
  | .wdict _ => some name
  | _ => none

/-- An HDF5GroupMap self object as far as behaviour depends on it: its
group_mapping, its store path, and the name of its generated namedtuple
(None when the mapping has no keys). -/
structure GMapW where
  children : List (String × WSchema)
  path : List String
  ntName : Option String

/-- An HDF5MultiGroup self object: its group_mapping (the element schema),
its store path, and its generated namedtuple name, which instances inherit. -/
structure MGrpW where
  elem : WSchema
  path : List String
  ntName : Option String

/-- Either wrapper kind as the receiver of the shared HDF5GroupBase
methods. -/
inductive WSelf where
  | g (w : GMapW)
  | m (w : MGrpW)

/-- Store path of a wrapper. -/
def pathOf : WSelf → List String
  | .g w => w.path
  | .m w => w.path

/-- Namedtuple name of a wrapper. -/
def ntOf : WSelf → Option String
  | .g w => w.ntName
  | .m w => w.ntName

/-- Result of a get: a child wrapper or a converted value. -/
inductive WRes where
  | wrap (w : WSelf)
  | value (v : WVal)

/-- Python list indexing into the schema list self._group_mapping with the
standard negative index convention. -/
def pyListGet (es : List WSchema) (i : Int) : Except PyErr WSchema :=
  let n : Int := es.length
  let j := if i < 0 then i + n else i
  if h : 0 ≤ j ∧ j < n then
    match es.get? j.toNat with
    | some e => .ok e
    | none => .error .indexError
  else .error .indexError

/-- Subscription self._group_mapping[index] exactly as Python evaluates it: a
dict is keyed by its string field names, so an int key is never present
(KeyError) and a str key looks a field up; a list takes int indices
(IndexError out of range, TypeError for a str index); a slice key is
unhashable for a dict; the leaf types are not subscriptable at all. -/
def wSubscript (s : WSchema) (key : WKey) : Except PyErr WSchema :=
  match s with
  | .wdict cs =>
    match key with
    | .kstr k =>
      match lookupW cs k with
      | some sub => .ok sub
      | none => .error .keyError
    | .kint _ => .error .keyError
    | .kslice => .error .typeError
  | .wlist es =>
    match key with
    | .kint i => pyListGet es i
    | _ => .error .typeError
  | _ => .error .typeError

/-- Normalised position of a Python list index into a list of n elements. -/
def normIdx (i : Int) (n : Nat) : Option Nat :=
  let j := if i < 0 then i + n else i
  if 0 ≤ j ∧ j < (n : Int) then some j.toNat else none

/-- The instance wrapper self._instances holds at a position: for a dict
element schema an HDF5GroupMap named by the stringified position inheriting
the multigroup namedtuple; for a list element schema a nested HDF5MultiGroup
over the head of that list (an empty list raises IndexError when the nested
wrapper is built); any other element schema can never have produced an
instance (new_instance raises RuntimeError for it). -/
def instanceAt (w : MGrpW) (j : Nat) : Except PyErr WSelf :=
  match w.elem with
  | .wdict cs => .ok (.g ⟨cs, w.path ++ [toString j], w.ntName⟩)
  | .wlist es =>
    match es with
    | e :: _ => .ok (.m ⟨e, w.path ++ [toString j], mgNtName (toString j) e⟩)
    | [] => .error .indexError
  | _ => .error .runtimeError

/-- HDF5GroupBase._get_item_group: a group map returns the cached child
wrapper from self._children (present exactly for dict and list shaped
fields); a multigroup returns self._instances[int(name)]. -/
def wGetItemGroup (st : WState) (self : WSelf) (key : WKey) :
    Except PyErr WRes :=
  match self with
  | .g w =>
    match key with
    | .kstr s =>
      match lookupW w.children s with
      | some (.wdict cs) => .ok (.wrap (.g ⟨cs, w.path ++ [s], some s⟩))
      | some (.wlist es) =>
        match es with
        | e :: _ => .ok (.wrap (.m ⟨e, w.path ++ [s], mgNtName s e⟩))
        | [] => .error .indexError
      | _ => .error .keyError
    | _ => .error .keyError
  | .m w => do
    let i ← pyToInt key
    match normIdx i (mgLen st w.path) with
    | some j => do
      let inst ← instanceAt w j
      .ok (.wrap inst)
    | none => .error .indexError

/-- Read of self._hdf5_file[path + "/" + name] for datasets. -/
def wGetDataset (st : WState) (path : List String) (key : WKey) :
    Except PyErr WObj :=
  match wflookup st.dsets (path, key) with
  | some o => .ok o
  | none => .error .keyError

/-- Read of self._hdf5_file[path].attrs[name]. -/
def wGetAttr (st : WState) (path : List String) (key : WKey) :
    Except PyErr WObj :=
  match wflookup st.attrs (path, key) with
  | some o => .ok o
  | none => .error .keyError

/-- The conversion objtype(x) on reads, as in the H5S namespace: exact
identity on matching shapes, parse for int of a str, truncation for int of a
float; conversions from shapes a well-typed store never holds collapse to
TypeError. -/
def wConvert (t : WSchema) (o : WObj) : Except PyErr WVal :=
  match t, o with
  | .wint, .wval (.wvint n) => .ok (.wvint n)
  | .wint, .wval (.wvstr s) =>
    match pyParseInt s with
    | some n => .ok (.wvint n)
    | none => .error .valueError
  | .wstr, .wval (.wvstr s) => .ok (.wvstr s)
  | .wstr, .wval (.wvint n) => .ok (.wvstr (toString n))
  | .wfloat, .wval (.wvfloat q) => .ok (.wvfloat q)
  | .wfloat, .wval (.wvint n) => .ok (.wvfloat n)
  | .wndarray, .wval (.wvarr xs) => .ok (.wvarr xs)
  | _, _ => .error .typeError

/-- HDF5GroupBase._get_item_from_file: a Mapping or Sequence objtype goes to
_get_item_group; an objtype in _use_dataset (ndarray) reads the dataset and
converts; any other objtype reads the attribute and converts. -/
def wGetItemFromFile (st : WState) (self : WSelf) (key : WKey)
    (objtype : WSchema) : Except PyErr WRes :=
  match objtype with
  | .wdict _ => wGetItemGroup st self key
  | .wlist _ => wGetItemGroup st self key
  | .wndarray => do
    let o ← wGetDataset st (pathOf self) key
    let v ← wConvert .wndarray o
    .ok (.value v)
  | t => do
    let o ← wGetAttr st (pathOf self) key
    let v ← wConvert t o
    .ok (.value v)

/-- HDF5GroupMap.__getitem__: a declared name dispatches through
_get_item_from_file with objtype self._group_mapping[name]; an undeclared
name (and any non-string key, absent from the str-keyed mapping) raises
KeyError. -/
def gmGetitem (st : WState) (w : GMapW) (key : WKey) : Except PyErr WRes :=
  match key with
  | .kstr s =>
    match lookupW w.children s with
    | some objtype => wGetItemFromFile st (.g w) key objtype
    | none => .error .keyError
  | _ => .error .keyError

/-- HDF5MultiGroup.__getitem__: when valid_index(index, len(self)) holds the
source evaluates self._group_mapping[index], subscribing the element schema
itself with the index, and passes the result to _get_item_from_file;
otherwise it raises IndexError. -/
def mgGetitem (st : WState) (w : MGrpW) (key : WKey) : Except PyErr WRes := do
  let i ← pyToInt key
  if valid_index i (mgLen st w.path) then do
    let objtype ← wSubscript w.elem key
    wGetItemFromFile st (.m w) key objtype
  else .error .indexError

/-- Shared __getitem__ dispatch over the receiver kind. -/
def wGetitemSelf (st : WState) (self : WSelf) (key : WKey) :
    Except PyErr WRes :=
  match self with
  | .g w => gmGetitem st w key
  | .m w => mgGetitem st w key

/-- Write of _set_item_attrs: require_group(path) then attrs[name] = obj. -/
def writeAttrW (st : WState) (path : List String) (key : WKey) (o : WObj) :
    WState :=
  { st with attrs := ((path, key), o) :: st.attrs }

/-- Write of _set_item_dataset: require_group(path) then group[name] = obj. -/
def writeDsetW (st : WState) (path : List String) (key : WKey) (o : WObj) :
    WState :=
  { st with dsets := ((path, key), o) :: st.dsets }

/-- Size bound for schema dict lookups, for termination of the set
dispatch. -/
theorem lookupW_sizeOf {cs : List (String × WSchema)} {k : String}
    {s : WSchema} (h : lookupW cs k = some s) : sizeOf s < sizeOf cs := by
  induction cs with
  | nil => simp [lookupW] at h
  | cons hd tl ih =>
    obtain ⟨n, sub⟩ := hd
    simp only [lookupW] at h
    split at h
    · injection h with h2
      subst h2
      simp
      omega
    · have := ih h
      simp
      omega

mutual

/-- HDF5GroupBase._set_item_in_file: a dict objtype goes to _set_group_map, a
list objtype to _set_multi_group, ndarray to the dataset write, and the
scalar types int, str, float to the attribute write. -/
def wSetItemInFile (st : WState) (self : WSelf) (key : WKey) (obj : WObj)
    (objtype : WSchema) : Except PyErr WState :=
  match objtype with
  | .wdict cs => wSetGroupMap st self key obj cs
  | .wlist es => wSetMultiGroup st self key obj es
  | .wndarray => .ok (writeDsetW st (pathOf self) key obj)
  | .wint => .ok (writeAttrW st (pathOf self) key obj)
  | .wstr => .ok (writeAttrW st (pathOf self) key obj)
  | .wfloat => .ok (writeAttrW st (pathOf self) key obj)
termination_by (sizeOf objtype, 8, 0)

/-- HDF5GroupBase._set_group_map: child = self[str(name)] (for a multigroup
receiver this is the buggy __getitem__ path), then isinstance(obj,
child._named_tuple) must hold: obj must be a record of the child namedtuple
(when _named_tuple is None the isinstance call itself raises TypeError), and
then child.update(**vars(obj)) assigns every record field through the child
setitem. -/
def wSetGroupMap (st : WState) (self : WSelf) (key : WKey) (obj : WObj)
    (cs : List (String × WSchema)) : Except PyErr WState := do
  let child ← wGetitemSelf st self (strKey key)
  match child with
  | .value _ => .error .attributeError
  | .wrap cw =>
    match obj with
    | .wrecord tn fields =>
      match ntOf cw with
      | some ntn =>
        if tn = ntn then wGroupUpdateW st (pathOf cw) (ntOf cw) cs fields
        else .error .typeError
      | none => .error .typeError
    | _ => .error .typeError
termination_by (sizeOf cs, 7, 0)

/-- MutableMapping.update on an HDF5GroupMap child: assign each record field
in order through HDF5GroupMap.__setitem__, which requires the name to be
declared (KeyError otherwise) and dispatches through _set_item_in_file. -/
def wGroupUpdateW (st : WState) (cpath : List String) (ntn : Option String)
    (cs : List (String × WSchema)) (fields : List (String × WObj)) :
    Except PyErr WState :=
  match fields with
  | [] => .ok st
  | (k, v) :: rest =>
    match hsub : lookupW cs k with
    | some sub => do
      let st2 ← wSetItemInFile st (.g ⟨cs, cpath, ntn⟩) (.kstr k) v sub
      wGroupUpdateW st2 cpath ntn cs rest
    | none => .error .keyError
termination_by (sizeOf cs, 6, fields.length)
decreasing_by
  · exact Prod.Lex.left _ _ (lookupW_sizeOf hsub)
  · exact Prod.Lex.right _ (Prod.Lex.right _ (by simp))

/-- HDF5GroupBase._set_multi_group: child = self[str(name)] is the multigroup
wrapper; a Mapping is applied entry by entry as child[key] = val, any other
Iterable element by element as child[i] = item (a record is an iterable of
its field values, a string of its one character strings, an array of its
floats), and a non-iterable number raises TypeError. -/
def wSetMultiGroup (st : WState) (self : WSelf) (key : WKey) (obj : WObj)
    (es : List WSchema) : Except PyErr WState := do
  let child ← wGetitemSelf st self (strKey key)
  match child with
  | .value _ => .error .attributeError
  | .wrap cw =>
    match obj with
    | .wdictObj entries => wMultiFoldStr st (pathOf cw) (ntOf cw) es entries
    | .wseq items => wMultiFoldInt st (pathOf cw) (ntOf cw) es items
    | .wrecord _ flds =>
      wMultiFoldInt st (pathOf cw) (ntOf cw) es (flds.map (fun p => p.2))
    | .wval (.wvstr s) =>
      wMultiFoldInt st (pathOf cw) (ntOf cw) es
        (s.toList.map (fun c => WObj.wval (.wvstr (String.singleton c))))
    | .wval (.wvarr xs) =>
      wMultiFoldInt st (pathOf cw) (ntOf cw) es
        (xs.map (fun q => WObj.wval (.wvfloat q)))
    | .wval (.wvint _) => .error .typeError
    | .wval (.wvfloat _) => .error .typeError
termination_by (sizeOf es, 7, 0)

/-- Entry-by-entry application of a Mapping to a multigroup child: the child
element schema is the head of the schema list. -/
def wMultiFoldStr (st : WState) (mpath : List String) (ntn : Option String)
    (es : List WSchema) (entries : List (String × WObj)) :
    Except PyErr WState :=
  match entries with
  | [] => .ok st
  | (k, v) :: rest =>
    match es with
    | e :: etl => do
      let st2 ← mgSetitemW st e mpath ntn (.kstr k) v
      wMultiFoldStr st2 mpath ntn (e :: etl) rest
    | [] => .error .indexError
termination_by (sizeOf es, 6, entries.length)

/-- Element-by-element application of a sequence to a multigroup child with
indices from enumerate. -/
def wMultiFoldInt (st : WState) (mpath : List String) (ntn : Option String)
    (es : List WSchema) (items : List WObj) : Except PyErr WState :=
  match items with
  | [] => .ok st
  | v :: rest =>
    match es with
    | e :: etl => do
      let st2 ← mgSetitemW st e mpath ntn (.kint 0) v
      wMultiFoldInt st2 mpath ntn (e :: etl) rest
    | [] => .error .indexError
termination_by (sizeOf es, 6, items.length)

/-- HDF5MultiGroup.__setitem__: an Integral index performs _set_item_in_file
with objtype self._group_mapping and then falls through to the unconditional
raise TypeError at the end of the method; a slice evaluates
slice.indices(self._instances), an unbound descriptor call on a list, which
raises TypeError; any other index skips both branches and reaches the same
unconditional raise. -/
def mgSetitemW (st : WState) (elem : WSchema) (mpath : List String)
    (ntn : Option String) (key : WKey) (item : WObj) : Except PyErr WState :=
  match key with
  | .kint i => do
    let _st2 ← wSetItemInFile st (.m ⟨elem, mpath, ntn⟩) (.kint i) item elem
    Except.error PyErr.typeError
  | .kslice => .error .typeError
  | .kstr _ => .error .typeError
termination_by (sizeOf elem, 9, 0)

end

end HW

namespace HW

/-- The inner helper new_instance of _create_new_instance: append a fresh
instance wrapper named str(index).  A dict element appends an HDF5GroupMap, a
list element a nested HDF5MultiGroup, any other element schema raises
RuntimeError.  In the state, what changes is the instance count at the
multigroup path. -/
def newInstance (st : WState) (w : MGrpW) : Except PyErr WState :=
  match w.elem with
  | .wdict _ => .ok (bumpCount st w.path)
  | .wlist _ => .ok (bumpCount st w.path)
  | _ => .error .runtimeError

/-- HDF5MultiGroup._create_new_instance: when index >= len(self) a fresh
instance is appended at position len(self); otherwise the shift loop starts
by evaluating reverse(enumerate(...)), and reverse is not a Python builtin
(the builtin is reversed), so the name lookup raises NameError before any
shifting happens. -/
def create_new_instance (st : WState) (w : MGrpW) (index : Int) :
    Except PyErr WState :=
  if index ≥ (mgLen st w.path : Int) then newInstance st w
  else .error .nameError

/-- HDF5MultiGroup.insert: self._create_new_instance(index) followed by
self[index] = item. -/
def insert (st : WState) (w : MGrpW) (index : Int) (item : WObj) :
    Except PyErr WState := do
  let st2 ← create_new_instance st w index
  mgSetitemW st2 w.elem w.path w.ntName (.kint index) item

/-- Values a raise statement can be given in this source: an exception, or
the builtin constant NotImplemented. -/
inductive Raisable where
  | exc (e : PyErr)
  | notImplementedConst

/-- Semantics of the Python raise statement: an exception class or instance
raises itself; raising NotImplemented, which is not an exception, makes the
interpreter raise TypeError (exceptions must derive from BaseException). -/
def pyRaise : Raisable → PyErr
  | .exc e => e
  | .notImplementedConst => .typeError

/-- HDF5GroupMap.__delitem__: the body is raise NotImplemented. -/
def gmDelitem (_item : WObj) : Except PyErr Unit :=
  .error (pyRaise .notImplementedConst)

/-- HDF5MultiGroup.__delitem__: the body is raise NotImplemented. -/
def mgDelitem (_item : WObj) : Except PyErr Unit :=
  .error (pyRaise .notImplementedConst)

/-- A generated namedtuple class as class_list_to_map sees it: its __name__
and its _fields tuple. -/
structure NTClass where
  name : String
  fields : List String
deriving DecidableEq, Repr

/-- Lookup by class name in the accumulated class map. -/
def cmLookup (m : List (String × NTClass)) (k : String) : Option NTClass :=
  match m with
  | [] => none
  | (n, c) :: rest => if n = k then some c else cmLookup rest k

/-- class_list_to_map of the source with the dict accumulator explicit: a
class whose name is new is added under its name; a class whose name is taken
is skipped when its _fields equal the stored ones and raises
RuntimeError("Duplicate names") otherwise. -/
def class_list_to_map (acc : List (String × NTClass)) :
    List NTClass → Except PyErr (List (String × NTClass))
  | [] => .ok acc
  | c :: rest =>
    match cmLookup acc c.name with
    | some c0 =>
      if c.fields = c0.fields then class_list_to_map acc rest
      else .error .runtimeError
    | none => class_list_to_map (acc ++ [(c.name, c)]) rest

end HW

/-- Running multigroup example: element schema with a single int field b. -/
def exElem : HW.WSchema := .wdict [("b", HW.WSchema.wint)]

/-- Path of the example multigroup wrapper. -/
def exMPath : List String := ["/", "m"]

/-- The example multigroup wrapper: element schema exElem, namedtuple m. -/
def exMG : HW.MGrpW := ⟨exElem, exMPath, some "m"⟩

/-- State in which the example multigroup holds one instance (scanned from a
pre-existing store group at construction). -/
def exStOne : HW.WState := ⟨[], [], [(exMPath, 1)]⟩

/-- State in which the example multigroup is empty. -/
def exStNil : HW.WState := ⟨[], [], []⟩

/-- A record value of the element namedtuple with b = 5. -/
def exRec : HW.WObj := .wrecord "m" [("b", .wval (.wvint 5))]

/-- Store holding one link at /g2/link whose stored target is /g1. -/
def exLinkStore : H5S.FileStore := ⟨[], [], [(["/", "g2", "link"], "/g1")]⟩

/-- The wrapper at /g2 in the link example. -/
def exG2 : H5S.VTree := .mk ["/", "g2"] []

/-- The root wrapper of the link example, holding children g1 and g2. -/
def exRootV : H5S.VTree :=
  .mk ["/"] [("g1", .mk ["/", "g1"] []), ("g2", .mk ["/", "g2"] [])]

/-- A group schema with one scalar field and no group-shaped field. -/
def exScalarSchema : List (String × H5S.HSchema) := [("a", H5S.HSchema.leaf .tint)]

/-- Subgroup schema of the round-trip example: an int field b and a str
field c. -/
def exGcs : List (String × H5S.HSchema) :=
  [("b", H5S.HSchema.leaf .tint), ("c", H5S.HSchema.leaf .tstr)]

/-- Parent schema of the round-trip example: one group-shaped field a. -/
def exParent : List (String × H5S.HSchema) := [("a", H5S.HSchema.group exGcs)]

/-- Record value of the generated RecordType a with b = 5 and c = x. -/
def exFields : List (String × H5S.PyObj) :=
  [("b", .val (.vint 5)), ("c", .val (.vstr "x"))]

/-- An empty backing store. -/
def exEmptyStore : H5S.FileStore := ⟨[], [], []⟩

/-- Claim C1: the claim says an integer index set on a MultiGroupView
performs a bulk element update and succeeds without raising, and any
non-integer index fails with TypeError.  On the code, with one existing
element and element schema b: int, the integer set self[0] = record raises
KeyError (child = self[str(0)] subscripts the element schema dict with the
stringified index inside the buggy __getitem__, and even a successful set
would still hit the unconditional trailing raise TypeError of __setitem__);
string and slice indices do raise TypeError as claimed. -/
theorem hw_mg_setitem_integer_raises :
    HW.mgSetitemW exStOne exMG.elem exMG.path exMG.ntName (.kint 0) exRec
      = .error .keyError
    ∧ HW.mgSetitemW exStOne exMG.elem exMG.path exMG.ntName (.kstr "x") exRec
      = .error .typeError
    ∧ HW.mgSetitemW exStOne exMG.elem exMG.path exMG.ntName .kslice exRec
      = .error .typeError := by
  have h0 : toString (0 : Int) = "0" := rfl
  refine ⟨?_, ?_, ?_⟩
  · simp +decide [HW.mgSetitemW, HW.wSetItemInFile, HW.wSetGroupMap, HW.wGetitemSelf,
      HW.mgGetitem, HW.pyToInt, HW.strKey, HW.valid_index, HW.mgLen, HW.clookup,
      HW.wSubscript, HW.lookupW, pyParseInt, decNat, digitVal, HW.pathOf,
      exMG, exElem, exMPath, exStOne, exRec, h0, bind, Except.bind]
  · simp [HW.mgSetitemW]
  · simp [HW.mgSetitemW]

/-- Claim C2: the claim says insert(index, value) creates or shifts slots so
that insert(0, a) then insert(0, b) then insert(0, c) on an empty
MultiGroupView reads back as c, b, a.  On the code already the first
insert(0, a) on an empty multigroup raises KeyError: _create_new_instance
appends the fresh slot, but self[0] = a then subscripts the element schema
dict with the stringified index inside __getitem__ and fails (and the shift
branch of _create_new_instance would call the undefined name reverse, and
__setitem__ ends in an unconditional raise TypeError). -/
theorem hw_insert_empty_raises :
    HW.insert exStNil exMG 0 exRec = .error .keyError := by
  have h0 : toString (0 : Int) = "0" := rfl
  simp +decide [HW.insert, HW.create_new_instance, HW.mgLen, HW.clookup, HW.newInstance,
    HW.bumpCount, HW.mgSetitemW, HW.wSetItemInFile, HW.wSetGroupMap, HW.wGetitemSelf,
    HW.mgGetitem, HW.pyToInt, HW.strKey, HW.valid_index, HW.wSubscript, HW.lookupW,
    pyParseInt, decNat, digitVal, HW.pathOf, exMG, exElem, exMPath, exStNil, exRec, h0,
    bind, Except.bind]

/-- Claim C5: the claim describes link resolution as computing the shared
path, walking up to the matching ancestor and down along the target.  On the
code, reading the link at /g2/link with stored target /g1 raises TypeError
before any walk: shared_path builds the common part list and hands the plain
Python list to the path constructor, which pathlib rejects. -/
theorem h5s_link_resolution_raises :
    H5S.getLink exLinkStore [exG2, exRootV] ["/", "g2"] "link"
      = .error .typeError := rfl

/-- Claim C6: the claim says get(i) on a MultiGroupView of length L succeeds
exactly for -L <= i <= L-1 and fails with LookupError outside.  On the code,
with L = 1 and element schema b: int, the in-range get(0) itself raises
KeyError (the element schema dict is subscripted with the integer index,
which a str-keyed dict never holds), while the out-of-range get(1) and
get(-2) do raise IndexError as claimed; valid_index itself accepts 0. -/
theorem hw_mg_getitem_inrange_raises :
    HW.valid_index 0 1 = true
    ∧ HW.mgGetitem exStOne exMG (.kint 0) = .error .keyError
    ∧ HW.mgGetitem exStOne exMG (.kint 1) = .error .indexError
    ∧ HW.mgGetitem exStOne exMG (.kint (-2)) = .error .indexError :=
  ⟨rfl, rfl, rfl, rfl⟩

/-- Claim C7: the claim says shared_path(p, p) = p and that diverging paths
give the empty path.  On the code shared_path always raises TypeError: the
loop accumulates the correct common part list (second conjunct), but the
result is built as HDF5Path(path) from a plain Python list, which the
pathlib constructor rejects (first conjunct, evaluated at p = /a). -/
theorem h5s_shared_path_raises :
    H5S.HDF5Path.shared_path ⟨["/", "a"]⟩ ⟨["/", "a"]⟩ = .error .typeError
    ∧ H5S.sharedSegs ["/", "a"] ["/", "a"] = ["/", "a"] := ⟨rfl, rfl⟩

/-- Claim C8: every delete on every view fails.  On the h5schemaesqe views it
fails with NotImplementedError (the UnsupportedOperationError of the spec) as
claimed; on the hdf5_wrapper views the body is raise NotImplemented, and
raising the NotImplemented constant, which is no exception, makes Python
raise TypeError instead. -/
theorem delete_raises_eval (o : H5S.PyObj) (w : HW.WObj) :
    H5S.delitem o = .error .notImplementedError
    ∧ HW.gmDelitem w = .error (HW.pyRaise .notImplementedConst)
    ∧ HW.gmDelitem w = .error .typeError
    ∧ HW.mgDelitem w = .error .typeError := ⟨rfl, rfl, rfl, rfl⟩

/-- Claim C4 counterexample: the claim says len() of a GroupView equals the
number of declared schema field names.  For the schema with the single scalar
field a, len(self._children) is 0 while one field name is declared and
iterated. -/
theorem h5s_len_schema_counterexample :
    H5S.wrapperLen exScalarSchema ≠ (H5S.wrapperIter exScalarSchema).length := by
  decide

/-- Claim C4 as amended: iteration on a GroupView yields exactly the declared
schema field names in declaration order, but len() equals the number of
Group- or MultiGroup-shaped declared fields (the eagerly materialized child
wrappers); the two agree exactly when every declared field is group-shaped.
Neither depends on the store, so writes never change them. -/
theorem h5s_len_iter_amended (cs : List (String × H5S.HSchema)) :
    H5S.wrapperIter cs = cs.map (fun p => p.1)
    ∧ H5S.wrapperLen cs = (cs.filter (fun p => H5S.isGroupShaped p.2)).length
    ∧ (H5S.wrapperLen cs = (H5S.wrapperIter cs).length ↔
        ∀ p ∈ cs, H5S.isGroupShaped p.2) := by
  refine ⟨rfl, ?_, ?_⟩
  · simp [H5S.wrapperLen, H5S.buildChildren]
  · simp only [H5S.wrapperLen, H5S.buildChildren, H5S.wrapperIter,
      List.length_map]
    exact List.filter_length_eq_length

/-- Claim C10: for a schema node that is neither a Group nor a MultiGroup,
get_wrapper returns None without raising (the source builds a TypeError but
never raises it), and only calling the returned None later fails with
TypeError. -/
theorem h5s_get_wrapper_returns_none (s : H5S.HSchema)
    (hg : ∀ cs, s ≠ H5S.HSchema.group cs)
    (hm : ∀ n e, s ≠ H5S.HSchema.multi n e) :
    H5S.get_wrapper s = .ok none ∧ H5S.applyWrapper none = .error .typeError := by
  constructor
  · cases s with
    | group cs => exact absurd rfl (hg cs)
    | multi n e => exact absurd rfl (hm n e)
    | link => rfl
    | leaf t => rfl
  · rfl

/-- Witness for claim C10 at the Link schema node. -/
theorem h5s_get_wrapper_returns_none_witness :
    H5S.get_wrapper .link = .ok none ∧ H5S.applyWrapper none = .error .typeError :=
  h5s_get_wrapper_returns_none H5S.HSchema.link
    (fun _ h => H5S.HSchema.noConfusion h)
    (fun _ _ h => H5S.HSchema.noConfusion h)

namespace HW

/-- A name found in the accumulator is still found after appending. -/
theorem cmLookup_append_some {m : List (String × NTClass)} {n : String}
    {c : NTClass} (h : cmLookup m n = some c) (l2 : List (String × NTClass)) :
    cmLookup (m ++ l2) n = some c := by
  induction m with
  | nil => simp [cmLookup] at h
  | cons hd tl ih =>
    obtain ⟨k, v⟩ := hd
    simp only [cmLookup, List.cons_append] at h ⊢
    by_cases hk : k = n
    · rw [if_pos hk] at h ⊢
      exact h
    · rw [if_neg hk] at h ⊢
      exact ih h

/-- A name absent from the accumulator defers to the appended part. -/
theorem cmLookup_append_none {m : List (String × NTClass)} {n : String}
    (h : cmLookup m n = none) (l2 : List (String × NTClass)) :
    cmLookup (m ++ l2) n = cmLookup l2 n := by
  induction m with
  | nil => simp [cmLookup]
  | cons hd tl ih =>
    obtain ⟨k, v⟩ := hd
    simp only [cmLookup, List.cons_append] at h ⊢
    by_cases hk : k = n
    · rw [if_pos hk] at h
      exact absurd h (by simp)
    · rw [if_neg hk] at h ⊢
      exact ih h

/-- Lookup success is membership among the stored names. -/
theorem cmLookup_isSome_iff {m : List (String × NTClass)} {n : String} :
    (cmLookup m n).isSome ↔ n ∈ m.map Prod.fst := by
  induction m with
  | nil => simp [cmLookup]
  | cons hd tl ih =>
    obtain ⟨k, v⟩ := hd
    by_cases hk : k = n
    · simp [cmLookup, hk]
    · simp [cmLookup, hk, ih, Ne.symm hk]

/-- class_list_to_map either succeeds or raises its one RuntimeError. -/
theorem clm_ok_or_err (rest : List NTClass) (acc : List (String × NTClass)) :
    (∃ m, class_list_to_map acc rest = .ok m)
    ∨ class_list_to_map acc rest = .error .runtimeError := by
  induction rest generalizing acc with
  | nil => exact Or.inl ⟨acc, rfl⟩
  | cons c tl ih =>
    simp only [class_list_to_map]
    cases hcm : cmLookup acc c.name with
    | some c0 =>
      by_cases hf : c.fields = c0.fields
      · simpa [hf] using ih acc
      · simp [hf]
    | none => exact ih (acc ++ [(c.name, c)])

/-- Accumulator entries survive a successful run. -/
theorem clm_preserve {rest : List NTClass} {acc m : List (String × NTClass)}
    (h : class_list_to_map acc rest = .ok m) :
    ∀ n c, cmLookup acc n = some c → cmLookup m n = some c := by
  induction rest generalizing acc with
  | nil =>
    simp only [class_list_to_map] at h
    injection h with h2
    subst h2
    exact fun _ _ hx => hx
  | cons c tl ih =>
    simp only [class_list_to_map] at h
    split at h
    next c0 hcm =>
      split at h
      · exact ih h
      · exact absurd h (by simp)
    next hcm =>
      intro n d hd
      exact ih h n d (cmLookup_append_some hd _)

/-- Every input class of a successful run has an entry under its name whose
fields equal its own. -/
theorem clm_total {rest : List NTClass} {acc m : List (String × NTClass)}
    (h : class_list_to_map acc rest = .ok m) :
    ∀ c ∈ rest, ∃ c0, cmLookup m c.name = some c0 ∧ c0.fields = c.fields := by
  induction rest generalizing acc with
  | nil => simp
  | cons c tl ih =>
    simp only [class_list_to_map] at h
    split at h
    next c0 hcm =>
      split at h
      next hf =>
        intro d hd
        rcases List.mem_cons.mp hd with hd | hd
        · subst hd
          exact ⟨c0, clm_preserve h _ _ hcm, hf.symm⟩
        · exact ih h d hd
      next hf => exact absurd h (by simp)
    next hcm =>
      intro d hd
      rcases List.mem_cons.mp hd with hd | hd
      · subst hd
        refine ⟨d, clm_preserve h _ _ ?_, rfl⟩
        rw [cmLookup_append_none hcm]
        simp [cmLookup]
      · exact ih h d hd

/-- The stored names of a successful run are the accumulator names together
with the processed class names. -/
theorem clm_keys {rest : List NTClass} {acc m : List (String × NTClass)}
    (h : class_list_to_map acc rest = .ok m) :
    ∀ n, (cmLookup m n).isSome ↔
      ((cmLookup acc n).isSome ∨ n ∈ rest.map NTClass.name) := by
  induction rest generalizing acc with
  | nil =>
    simp only [class_list_to_map] at h
    injection h with h2
    subst h2
    simp
  | cons c tl ih =>
    simp only [class_list_to_map] at h
    split at h
    next c0 hcm =>
      split at h
      next hf =>
        intro n
        rw [ih h n]
        simp only [List.map_cons, List.mem_cons]
        constructor
        · rintro (ha | hr)
          · exact Or.inl ha
          · exact Or.inr (Or.inr hr)
        · rintro (ha | he | hr)
          · exact Or.inl ha
          · subst he
            exact Or.inl (by simp [hcm])
          · exact Or.inr hr
      next hf => exact absurd h (by simp)
    next hcm =>
      intro n
      rw [ih h n]
      simp only [List.map_cons, List.mem_cons]
      by_cases hn : n = c.name
      · subst hn
        have hone : (cmLookup (acc ++ [(c.name, c)]) c.name).isSome := by
          rw [cmLookup_append_none hcm]
          simp [cmLookup]
        constructor
        · intro _
          exact Or.inr (Or.inl rfl)
        · intro _
          exact Or.inl hone
      · have hsame : cmLookup (acc ++ [(c.name, c)]) n = cmLookup acc n := by
          cases hacc : cmLookup acc n with
          | some d => exact cmLookup_append_some hacc _
          | none =>
            rw [cmLookup_append_none hacc]
            have hcn : ¬ c.name = n := fun h2 => hn h2.symm
            simp [cmLookup, hcn]
        rw [hsame]
        constructor
        · rintro (ha | hr)
          · exact Or.inl ha
          · exact Or.inr (Or.inr hr)
        · rintro (ha | he | hr)
          · exact Or.inl ha
          · exact absurd he hn
          · exact Or.inr hr

/-- The stored names of a successful run stay distinct. -/
theorem clm_nodup {rest : List NTClass} {acc m : List (String × NTClass)}
    (h : class_list_to_map acc rest = .ok m)
    (hacc : (acc.map Prod.fst).Nodup) : (m.map Prod.fst).Nodup := by
  induction rest generalizing acc with
  | nil =>
    simp only [class_list_to_map] at h
    injection h with h2
    subst h2
    exact hacc
  | cons c tl ih =>
    simp only [class_list_to_map] at h
    split at h
    next c0 hcm =>
      split at h
      · exact ih h hacc
      · exact absurd h (by simp)
    next hcm =>
      refine ih h ?_
      have hnotin : c.name ∉ acc.map Prod.fst := by
        rw [← cmLookup_isSome_iff]
        simp [hcm]
      simp only [List.map_append, List.map_cons, List.map_nil]
      rw [List.nodup_append]
      refine ⟨hacc, List.nodup_singleton _, ?_⟩
      intro a ha hb
      simp only [List.mem_singleton] at hb
      subst hb
      exact hnotin ha

end HW

/-- Claim C9: class_list_to_map produces exactly one registry entry per
distinct class name (first conjunct: on success the stored names are distinct
and are exactly the input names), and two classes sharing a name with
differing field tuples make the whole run raise RuntimeError, the
ConfigurationError of the spec, during registry generation (second
conjunct). -/
theorem hw_registry_one_entry_per_name :
    (∀ (cl : List HW.NTClass) (m : List (String × HW.NTClass)),
        HW.class_list_to_map [] cl = .ok m →
        (m.map Prod.fst).Nodup
        ∧ ∀ n, n ∈ m.map Prod.fst ↔ n ∈ cl.map HW.NTClass.name)
    ∧ (∀ (cl : List HW.NTClass) (c1 c2 : HW.NTClass), c1 ∈ cl → c2 ∈ cl →
        c1.name = c2.name → c1.fields ≠ c2.fields →
        HW.class_list_to_map [] cl = .error .runtimeError) := by
  constructor
  · intro cl m h
    refine ⟨HW.clm_nodup h (by simp), ?_⟩
    intro n
    rw [← HW.cmLookup_isSome_iff, HW.clm_keys h n]
    simp [HW.cmLookup]
  · intro cl c1 c2 h1 h2 hn hf
    rcases HW.clm_ok_or_err cl [] with ⟨m, hm⟩ | he
    · exfalso
      obtain ⟨d1, hd1, hfd1⟩ := HW.clm_total hm c1 h1
      obtain ⟨d2, hd2, hfd2⟩ := HW.clm_total hm c2 h2
      rw [hn] at hd1
      rw [hd1] at hd2
      injection hd2 with hd
      subst hd
      exact hf (hfd1.symm.trans hfd2)
    · exact he

/-- Witness for claim C9: two classes named g with fields x and y make the
registry generation raise RuntimeError. -/
theorem hw_registry_one_entry_per_name_witness :
    HW.class_list_to_map [] [⟨"g", ["x"]⟩, ⟨"g", ["y"]⟩] = .error .runtimeError :=
  hw_registry_one_entry_per_name.2 [⟨"g", ["x"]⟩, ⟨"g", ["y"]⟩]
    ⟨"g", ["x"]⟩ ⟨"g", ["y"]⟩ (by simp) (by simp) rfl (by decide)

namespace H5S

/-- Conversion is the identity on a well-typed value. -/
theorem convert_wt {t : LeafTy} {v : Value} (h : wt t v = true) :
    convert t (PyObj.val v) = Except.ok v := by
  cases t <;> cases v <;> simp_all [wt, convert]

/-- A prepended store entry with a different name leaves a lookup alone. -/
theorem flookup_write_ne {st : List ((List String × String) × PyObj)}
    {p p2 : List String} {n k : String} {o : PyObj} (h : k ≠ n) :
    flookup (((p, n), o) :: st) (p2, k) = flookup st (p2, k) := by
  have hne : ((p, n) : List String × String) ≠ (p2, k) := by
    intro he
    apply h
    have h2 := congrArg Prod.snd he
    simpa using h2.symm
  simp [flookup, hne]

/-- A leaf write is read back at its own location. -/
theorem readLeafRaw_writeLeaf_self (st : FileStore) (p : List String)
    (n : String) (t : LeafTy) (o : PyObj) :
    readLeafRaw (writeLeaf st p n t o) p n t = some o := by
  cases ht : useAttrsMem t <;> simp [readLeafRaw, writeLeaf, ht, flookup]

/-- A leaf write leaves every location with a different name alone, in both
the attribute and the dataset store. -/
theorem readLeafRaw_writeLeaf_ne (st : FileStore) (p p2 : List String)
    (n k : String) (t t2 : LeafTy) (o : PyObj) (h : k ≠ n) :
    readLeafRaw (writeLeaf st p n t o) p2 k t2 = readLeafRaw st p2 k t2 := by
  cases ht : useAttrsMem t <;> cases ht2 : useAttrsMem t2 <;>
    simp [readLeafRaw, writeLeaf, ht, ht2, flookup_write_ne h]

/-- Head decomposition of the record well-typedness check. -/
theorem fieldsOK_head {gcs : List (String × HSchema)} {k : String} {o : PyObj}
    {rest : List (String × PyObj)} (h : fieldsOK gcs ((k, o) :: rest) = true) :
    (∃ t v, lookupSchema gcs k = some (HSchema.leaf t) ∧ o = PyObj.val v
      ∧ wt t v = true)
    ∧ fieldsOK gcs rest = true := by
  simp only [fieldsOK, Bool.and_eq_true] at h
  obtain ⟨h1, h2⟩ := h
  refine ⟨?_, h2⟩
  cases hls : lookupSchema gcs k with
  | none =>
    rw [hls] at h1
    cases o <;> simp at h1
  | some s =>
    rw [hls] at h1
    cases s with
    | leaf t =>
      cases o with
      | val v => exact ⟨t, v, rfl, rfl, by simpa using h1⟩
      | record a b => simp at h1
      | pydict a => simp at h1
      | pyseq a => simp at h1
    | group cs => cases o <;> simp at h1
    | multi n e => cases o <;> simp at h1
    | link => cases o <;> simp at h1

/-- Every field of a well-typed record is a well-typed value of a declared
leaf. -/
theorem fieldsOK_mem {gcs : List (String × HSchema)}
    {fields : List (String × PyObj)} (h : fieldsOK gcs fields = true) :
    ∀ k o, (k, o) ∈ fields →
      ∃ t v, lookupSchema gcs k = some (HSchema.leaf t) ∧ o = PyObj.val v
        ∧ wt t v = true := by
  induction fields with
  | nil => simp
  | cons hd rest ih =>
    obtain ⟨k0, o0⟩ := hd
    obtain ⟨hhd, hrest⟩ := fieldsOK_head h
    intro k o hmem
    rcases List.mem_cons.mp hmem with he | hm
    · injection he with he1 he2
      subst he1
      subst he2
      exact hhd
    · exact ih hrest k o hm

/-- Behaviour of update on a well-typed flat record: it succeeds, it writes
exactly the record fields at the child path, and it leaves every other name
alone. -/
theorem wrapperUpdate_spec (cpath : List String) (gcs : List (String × HSchema)) :
    ∀ (fields : List (String × PyObj)) (st : FileStore),
      fieldsOK gcs fields = true → (fields.map Prod.fst).Nodup →
      ∃ st2, wrapperUpdate st cpath gcs fields = .ok st2
        ∧ (∀ p2 k2 t2, k2 ∉ fields.map Prod.fst →
            readLeafRaw st2 p2 k2 t2 = readLeafRaw st p2 k2 t2)
        ∧ (∀ k v t, (k, PyObj.val v) ∈ fields →
            lookupSchema gcs k = some (HSchema.leaf t) →
            readLeafRaw st2 cpath k t = some (PyObj.val v)) := by
  intro fields
  induction fields with
  | nil =>
    intro st _ _
    refine ⟨st, by simp [wrapperUpdate], fun _ _ _ _ => rfl, by simp⟩
  | cons hd rest ih =>
    obtain ⟨k, o⟩ := hd
    intro st hok hnd
    obtain ⟨⟨t, v, hls, ho, hwt⟩, hokr⟩ := fieldsOK_head hok
    subst ho
    simp only [List.map_cons, List.nodup_cons] at hnd
    obtain ⟨hknotin, hndr⟩ := hnd
    obtain ⟨st2, hok2, hframe2, hhit2⟩ :=
      ih (writeLeaf st cpath k t (PyObj.val v)) hokr hndr
    have hstep : wrapperUpdate st cpath gcs ((k, PyObj.val v) :: rest)
        = wrapperUpdate (writeLeaf st cpath k t (PyObj.val v)) cpath gcs rest := by
      simp only [wrapperUpdate]
      split
      next sub hsub2 =>
        rw [hls] at hsub2
        injection hsub2 with h2
        subst h2
        simp [set_item_in_file, bind, Except.bind]
      next hnone =>
        rw [hls] at hnone
        simp at hnone
    refine ⟨st2, by rw [hstep]; exact hok2, ?_, ?_⟩
    · intro p2 k2 t2 hk2
      simp only [List.map_cons, List.mem_cons, not_or] at hk2
      obtain ⟨hk2ne, hk2r⟩ := hk2
      rw [hframe2 p2 k2 t2 hk2r]
      exact readLeafRaw_writeLeaf_ne st cpath p2 k k2 t t2 (PyObj.val v) hk2ne
    · intro k1 v1 t1 hmem hls1
      rcases List.mem_cons.mp hmem with he | hm
      · have he1 : k1 = k := by
          have h4 := congrArg Prod.fst he
          simpa using h4
        have he3 : v1 = v := by
          have h4 := congrArg Prod.snd he
          simp at h4
          exact h4
        have ht1 : t1 = t := by
          rw [he1, hls] at hls1
          injection hls1 with h4
          injection h4 with h5
          exact h5.symm
        rw [he1, he3, ht1, hframe2 cpath k t hknotin]
        exact readLeafRaw_writeLeaf_self st cpath k t (PyObj.val v)
      · exact hhit2 k1 v1 t1 hm hls1

/-- A stored well-typed leaf value is read back converted to itself. -/
theorem leaf_read {st : FileStore} {cpath : List String} {k : String}
    {t : LeafTy} {v : Value}
    (hr : readLeafRaw st cpath k t = some (PyObj.val v))
    (hwt : wt t v = true) :
    get_item_from_file st [] cpath k (HSchema.leaf t) = .ok (.value v) := by
  cases ht : useAttrsMem t with
  | true =>
    simp [readLeafRaw, ht] at hr
    simp [get_item_from_file, ht, get_attr, hr, convert_wt hwt, bind, Except.bind]
  | false =>
    simp [readLeafRaw, ht] at hr
    simp [get_item_from_file, ht, get_dataset, hr, convert_wt hwt, bind, Except.bind]

end H5S

/-- Claim C3: for every GroupView, every declared Group-shaped field f whose
subgroup declares leaf (scalar or array) fields, and every well-typed record
value r of that generated RecordType, set(f, r) succeeds and get(f) returns
the cached child view; reading every record field back from that child view
yields exactly the value r carries for it (scalars exact, arrays element-wise
equal, both being the identity conversion on well-typed values). -/
theorem h5s_group_roundtrip (st : H5S.FileStore) (ppath : List String)
    (pchildren gcs : List (String × H5S.HSchema)) (f : String)
    (fields : List (String × H5S.PyObj))
    (hf : H5S.lookupSchema pchildren f = some (H5S.HSchema.group gcs))
    (hok : H5S.fieldsOK gcs fields = true)
    (hnd : (fields.map Prod.fst).Nodup) :
    ∃ st2, H5S.setitem st pchildren ppath f (.record f fields) = .ok st2
      ∧ H5S.getitem st2 [] pchildren ppath f = .ok (.view (ppath ++ [f]))
      ∧ ∀ k v, (k, H5S.PyObj.val v) ∈ fields →
          H5S.getitem st2 [] gcs (ppath ++ [f]) k = .ok (.value v) := by
  obtain ⟨st2, hok2, hframe2, hhit2⟩ :=
    H5S.wrapperUpdate_spec (ppath ++ [f]) gcs fields st hok hnd
  refine ⟨st2, ?_, ?_, ?_⟩
  · simp only [H5S.setitem, hf]
    simp [H5S.set_item_in_file, H5S.set_group]
    exact hok2
  · simp [H5S.getitem, hf, H5S.get_item_from_file]
  · intro k v hmem
    obtain ⟨t, v2, hls, hv2, hwt⟩ := H5S.fieldsOK_mem hok k (H5S.PyObj.val v) hmem
    injection hv2 with hv3
    subst hv3
    have hr := hhit2 k v t hmem hls
    simp only [H5S.getitem, hls]
    exact H5S.leaf_read hr hwt

/-- Witness for claim C3: the schema a: Group with b: int and c: str, the
record a(b = 5, c = x), an empty store. -/
theorem h5s_group_roundtrip_witness :
    ∃ st2, H5S.setitem exEmptyStore exParent ["/"] "a" (.record "a" exFields)
        = .ok st2
      ∧ H5S.getitem st2 [] exParent ["/"] "a" = .ok (.view ["/", "a"])
      ∧ ∀ k v, (k, H5S.PyObj.val v) ∈ exFields →
          H5S.getitem st2 [] exGcs ["/", "a"] k = .ok (.value v) :=
  h5s_group_roundtrip exEmptyStore ["/"] exParent exGcs "a" exFields rfl
    (by decide) (by decide)
